import Mathlib

/-!
# Verification of the odesair ingestion-dedup-batch-classify-relay pipeline

Shallow embedding of the core pipeline of the odesair repository:
the per-source cursor tracker (`processNewMessages`), the adaptive batch
scheduler of `monitorChannels`, the bounded conversation history
(`AddMessageToHistory`), the retrying classifier clients
(`OpenRouterClient.SendMessage` from openrouter.go and
`ClaudeClient.SendMessage` from main.go), and the relay decision logic
(`handleAIInteraction` / `formatAIResponse`).

Network transport and JSON wire handling are external effects; they are
embedded by their observable outcome at each call site (a per-attempt
environment), while all control flow, state updates and field-defaulting
behaviour of Go's `json.Unmarshal` (absent fields decode to zero values)
are modelled exactly as in the source.
-/

namespace Odesair

/-- An inline image attachment (struct `Image` in claude.go): raw bytes
plus a MIME content-type tag. -/
structure Image where
  data : List Nat
  mimeType : String
deriving DecidableEq, Repr

/-- A conversation entry (struct `Message`): role, text content and
attached images. The main.go variant has no images; its functions simply
never touch the field. -/
structure Message where
  role : String
  content : String
  images : List Image
deriving DecidableEq, Repr

/-- The structured classifier verdict (struct `AIJSONResponse`):
narrative text, optional rationale, and the danger / statusChanged flags.
(The main.go variant lacks the `principle` field; its decoder below
leaves it empty.) -/
structure AIJSONResponse where
  text : String
  principle : String
  danger : Bool
  statusChanged : Bool
deriving DecidableEq, Repr

/-! ## Bounded conversation history (`AddMessageToHistory`)

All provider clients implement the same eviction rule
(claude.go:13-18, openrouter.go:30-35, main.go:137-149):
append the new message, then drop the front entry while the length
exceeds `maxMessageHistory` (20 in claude.go, 30 in main.go; the
`if` and `for` variants coincide because at most one entry overflows). -/

/-- `AddMessageToHistory`: append `m` and evict the oldest entry if the
configured bound `maxH` is exceeded. -/
def addMessageToHistory (maxH : Nat) (hist : List Message) (m : Message) : List Message :=
  if maxH < (hist ++ [m]).length then (hist ++ [m]).tail else hist ++ [m]

/-! ## Relay decision logic (`handleAIInteraction` / `formatAIResponse`)

claude.go:640-654 sends to Telegram only when `aiResponse.StatusChanged`
holds, with `silent = !aiResponse.Danger`, and body
`formatAIResponse` (claude.go:888-894): an indicator glyph followed by
the judgment text. -/

/-- The derived notification action: whether to post, whether the post is
silent, and the formatted body. -/
structure RelayAction where
  send : Bool
  silent : Bool
  body : String
deriving DecidableEq, Repr

/-- `formatAIResponse` (claude.go:888-894): "🚨" when danger else "✅",
then a space and the judgment text. -/
def formatAIResponse (response : AIJSONResponse) : String :=
  let emoji := if response.danger then "🚨" else "✅"
  emoji ++ " " ++ response.text

/-- The relay decision taken by `handleAIInteraction` (claude.go:640-654)
once a classifier verdict is in hand (the `EnableTelegramSend` branch):
suppress when the status is unchanged, otherwise post
`formatAIResponse` with `silent = !Danger`. -/
def relayDecision (response : AIJSONResponse) : Option RelayAction :=
  if response.statusChanged then
    some { send := true, silent := !response.danger, body := formatAIResponse response }
  else
    none

/-! ## Cursor tracker (`processNewMessages`, claude.go:799-839 / main.go:663-682)

Both versions capture `latestMessageID := lastMessageIDs[channelID]` once
(a snapshot), walk the fetched slice in reverse (the source delivers
newest-first, so the walk is oldest-first), accept every message whose ID
strictly exceeds the snapshot, and raise the live map entry whenever the
accepted ID exceeds it. A Go map read of a missing key yields the zero
value, so the cursor map is embedded as a total function `String → Nat`
defaulting to 0. Message download/formatting is independent of admission
and is not needed here; a fetched message is its ID plus its text. -/

/-- One fetched source message: its sequence ID and text. -/
structure TgMsg where
  id : Nat
  text : String
deriving DecidableEq, Repr

/-- The admission loop body of `processNewMessages`: walks the (already
reversed) message list with the call-entry snapshot `snap`, accumulating
accepted messages in order and updating the live cursor map. -/
def processLoop (channelID : String) (snap : Nat) :
    List TgMsg → List TgMsg → (String → Nat) → List TgMsg × (String → Nat)
  | [], acc, cur => (acc, cur)
  | m :: rest, acc, cur =>
      if snap < m.id then
        let cur' := if cur channelID < m.id
          then (fun x => if x = channelID then m.id else cur x)
          else cur
        processLoop channelID snap rest (acc ++ [m]) cur'
      else
        processLoop channelID snap rest acc cur

/-- `processNewMessages`: snapshot the stored watermark for `channelID`,
then admit the fetched slice oldest-first (slice reversed). Returns the
accepted messages in processing order and the updated cursor map. -/
def processNewMessages (channelID : String) (msgs : List TgMsg)
    (lastMessageIDs : String → Nat) : List TgMsg × (String → Nat) :=
  let latestMessageID := lastMessageIDs channelID
  processLoop channelID latestMessageID msgs.reverse [] lastMessageIDs

/-- The admission rule in the words of the spec (§4.1): an item is
accepted iff its sequence ID strictly exceeds the *currently stored*
watermark, and acceptance raises the watermark to that ID. Used to
compare the per-item spec rule against the snapshot-based code. -/
def processNewMessagesPerItemSpec (channelID : String) (msgs : List TgMsg)
    (lastMessageIDs : String → Nat) : List TgMsg × (String → Nat) :=
  msgs.reverse.foldl
    (fun (p : List TgMsg × (String → Nat)) m =>
      if p.2 channelID < m.id then
        (p.1 ++ [m], fun x => if x = channelID then m.id else p.2 x)
      else p)
    ([], lastMessageIDs)

/-! ## Batch scheduler (`monitorChannels`, claude.go:440-610)

The monitor loop owns the cursor map `lastMessageIDs`, the
`messageBuffer`, and a single adaptive deadline timer
(`batchTimer`/`batchTimerChan`/`batchDeadline`, always set and cleared
together, so the armed timer is embedded as `batchDeadline : Option Nat`
with time in some fixed unit). The loop is a single event-driven wait
point; its two buffer/timer-relevant events are embedded below:

* enqueue (claude.go:534-570): when a fetch tick produced a non-empty
  `newlyFetchedMessages`, append it to the buffer; if no timer is armed,
  arm `deadline = now + AIBatchInterval`; otherwise re-arm
  `deadline = previous deadline + AIBatchExtendDuration` (extension is
  relative to the existing deadline, not to `now` — the code stops and
  drains the old timer even when it already fired, so this arm also
  covers an enqueue racing a pending fire).
* fire (claude.go:572-601): the armed timer fired; with an empty buffer
  just clear the timer state; otherwise take the whole buffer, clear it,
  clear the timer state, and hand the batch to the flush path
  (classification + relay). A fire event needs an armed timer: a `select`
  on a nil channel never receives. -/

/-- The monitor-loop state mutated under `mu`: the cursor map, the batch
buffer and the (optional) armed flush deadline. -/
structure MonState where
  lastMessageIDs : String → Nat
  messageBuffer : List Message
  batchDeadline : Option Nat

/-- The buffer/timer events of the `monitorChannels` select loop, each
tagged with the wall-clock instant at which it is handled. -/
inductive MonEvent where
  | enqueue (msgs : List Message) (now : Nat)
  | fire (now : Nat)

/-- One step of the monitor loop: returns the new state and, when the
fire path flushed, the batch handed to the flush callback together with
its flush instant. -/
def monStep (bw eb : Nat) (s : MonState) : MonEvent → MonState × Option (Nat × List Message)
  | .enqueue msgs now =>
      if msgs = [] then (s, none)
      else
        let deadline := match s.batchDeadline with
          | none => now + bw
          | some d => d + eb
        ({ s with messageBuffer := s.messageBuffer ++ msgs,
                  batchDeadline := some deadline }, none)
  | .fire now =>
      match s.batchDeadline with
      | none => (s, none)
      | some _ =>
          if s.messageBuffer = [] then
            ({ s with batchDeadline := none }, none)
          else
            ({ s with messageBuffer := [], batchDeadline := none },
             some (now, s.messageBuffer))

/-- Run the monitor loop over a sequence of events, collecting the
flushed batches in order. -/
def runMon (bw eb : Nat) (s : MonState) : List MonEvent → MonState × List (Nat × List Message)
  | [] => (s, [])
  | e :: es =>
      let p := monStep bw eb s e
      let r := runMon bw eb p.1 es
      (r.1, (match p.2 with | some b => [b] | none => []) ++ r.2)

/-- The Idle scheduler state: empty buffer, no timer armed. -/
def idleMon (cur : String → Nat) : MonState :=
  { lastMessageIDs := cur, messageBuffer := [], batchDeadline := none }

/-- A burst of single-item enqueue events at given instants. -/
def enqueueTrace (ps : List (Nat × Message)) : List MonEvent :=
  ps.map (fun p => MonEvent.enqueue [p.2] p.1)

/-- "Each arrival before the prior deadline fires": the first time in the
list precedes the current deadline `d`, and each later one precedes the
deadline as extended by `eb` per arrival. -/
def beforeDeadlines (eb : Nat) : Nat → List Nat → Prop
  | _, [] => True
  | d, t :: ts => t < d ∧ beforeDeadlines eb (d + eb) ts

/-! ## Classifier clients: retrying dispatch, validation, history

Two cited variants are embedded:

* `OpenRouterClient.SendMessage` (openrouter.go:64-166): `maxRetries`
  attempts; before each attempt after the first it sleeps
  `2^(attempt-1) * baseDelay`; transport errors, outer-JSON parse errors,
  API error payloads, empty choice lists and inner-JSON parse errors all
  set `lastError` and continue; a successfully parsed verdict is returned
  at once after appending an assistant summary to the history; exhausting
  the loop returns an error wrapping `lastError`.
* `ClaudeClient.SendMessage` (main.go:151-238): `maxRetries = 3`
  attempts; additionally validates the parsed verdict with
  `validateAIResponse` (non-empty text) and retries on failure; on
  success it returns without touching the history again; after the loop
  it appends an assistant entry holding `aiResp.Text` and returns an
  error wrapping the last failure.

The network/JSON wire is embedded by outcome: each attempt consults an
environment `Nat → reply`. A reply that decodes as JSON is a record of
*optional* fields, mirroring Go's `json.Unmarshal` into a struct, which
leaves absent fields at their zero values ("" / false); a reply whose
inner unmarshal fails leaves the target variable unchanged. -/

/-- Failure classification of one dispatch attempt (the Go code carries
these as wrapped error strings). -/
inductive SendErr where
  | transport
  | readBody
  | httpStatus (code : Nat)
  | parse
  | apiError
  | noChoices
  | noContent
  | contentParse
  | invalidFormat
  | maxRetriesExceeded (last : Option SendErr)
  | failedAfterRetries (last : Option SendErr)

/-- The fields of a well-formed inner JSON verdict object, each optional:
Go's `json.Unmarshal` leaves a missing field at its zero value. -/
structure JsonFields where
  text : Option String
  principle : Option String
  danger : Option Bool
  statusChanged : Option Bool
deriving DecidableEq, Repr

/-- Go's decoding of a well-formed verdict object into `AIJSONResponse`:
absent fields become "" / false. -/
def decodeAIJSON (f : JsonFields) : AIJSONResponse :=
  { text := f.text.getD "", principle := f.principle.getD "",
    danger := f.danger.getD false, statusChanged := f.statusChanged.getD false }

/-- main.go's `AIJSONResponse` has no `principle` field, so its decoder
leaves it empty. -/
def decodeClaudeJSON (f : JsonFields) : AIJSONResponse :=
  { text := f.text.getD "", principle := "",
    danger := f.danger.getD false, statusChanged := f.statusChanged.getD false }

/-- Go's `%v` rendering of a boolean. -/
def goBool (b : Bool) : String := if b then "true" else "false"

/-- The assistant summary appended on success by
`OpenRouterClient.SendMessage` (openrouter.go:159-161). -/
def assistantSummary (r : AIJSONResponse) : String :=
  r.text ++ " (Principle: " ++ r.principle ++ ", Danger: " ++ goBool r.danger ++
    ", StatusChanged: " ++ goBool r.statusChanged ++ ")"

/-- `validateAIResponse` (main.go:335-337), literally: non-empty text and
two tautological boolean checks. -/
def validateAIResponse (resp : AIJSONResponse) : Bool :=
  (resp.text != "") && ((resp.danger == true) || (resp.danger == false)) &&
    ((resp.statusChanged == true) || (resp.statusChanged == false))

/-- Outcome of one OpenRouter attempt, as observed by the client code
after the HTTP call: transport / body-read failure, outer JSON that does
not parse, an API error payload, an empty `choices` list, or the
choice's content — which is either not well-formed JSON (`none`) or a
JSON object with optional fields. -/
inductive ORReply where
  | transportErr
  | readErr
  | badJson
  | apiErr
  | noChoices
  | content (c : Option JsonFields)
deriving DecidableEq, Repr

/-- The attempt body of openrouter.go:101-162: every branch before a
successful inner parse sets `lastError` and continues; a parsed object
decodes with zero-value defaults and succeeds immediately. -/
def classifyOR : ORReply → Except SendErr AIJSONResponse
  | .transportErr => .error .transport
  | .readErr => .error .readBody
  | .badJson => .error .parse
  | .apiErr => .error .apiError
  | .noChoices => .error .noChoices
  | .content none => .error .contentParse
  | .content (some f) => .ok (decodeAIJSON f)

/-- The observable outcome of `OpenRouterClient.SendMessage`: the parsed
verdict on success, the terminal error on failure, the final
`MessageHistory`, the backoff sleeps performed (in order) and the number
of attempts made. -/
structure ORResult where
  result : Option AIJSONResponse
  err : Option SendErr
  history : List Message
  delays : List Nat
  attempts : Nat

/-- The retry loop of openrouter.go:69-163, structurally recursive on the
remaining attempt budget; `attempt` is the 0-based loop index. -/
def openRouterLoop (baseD maxH : Nat) (env : Nat → ORReply) (hist : List Message) :
    Nat → Nat → Option SendErr → ORResult
  | _, 0, lastErr => ⟨none, some (.maxRetriesExceeded lastErr), hist, [], 0⟩
  | attempt, remaining + 1, _lastErr =>
      let ds : List Nat := if attempt = 0 then [] else [2 ^ (attempt - 1) * baseD]
      match classifyOR (env attempt) with
      | .error e =>
          let r := openRouterLoop baseD maxH env hist (attempt + 1) remaining (some e)
          ⟨r.result, r.err, r.history, ds ++ r.delays, r.attempts + 1⟩
      | .ok res =>
          ⟨some res, none,
           addMessageToHistory maxH hist ⟨"assistant", assistantSummary res, []⟩,
           ds, 1⟩

/-- `OpenRouterClient.SendMessage` (openrouter.go:64-166): append the
user entry to the bounded history, then run the retry loop (source
configuration: `maxRetries = 30`, `baseDelay = 1` second,
`maxMessageHistory = 20`). -/
def openRouterSendMessage (maxR baseD maxH : Nat) (hist0 : List Message)
    (userMessage : String) (env : Nat → ORReply) : ORResult :=
  openRouterLoop baseD maxH env
    (addMessageToHistory maxH hist0 ⟨"user", userMessage, []⟩) 0 maxR none

/-- The backoff sleeps performed by a run of `k` OpenRouter attempts
whose 0-based loop indices start at `a`: attempt 0 sleeps nothing,
attempt `j > 0` sleeps `2^(j-1) * baseD` first. -/
def delaysFor (baseD a k : Nat) : List Nat :=
  (List.range' a k).filterMap
    (fun j => if j = 0 then none else some (2 ^ (j - 1) * baseD))

/-- Outcome of one Claude attempt (main.go:178-230): transport failure,
body-read failure, non-2xx status, outer JSON that does not parse, an
empty `Content` list, or the inner content parse result. -/
inductive ClaudeReply where
  | transportErr
  | readErr
  | non2xx (code : Nat)
  | badJson
  | noContent
  | content (c : Option JsonFields)
deriving DecidableEq, Repr

/-- Failure classification of one Claude attempt; a parsed object is
handed on for validation. -/
def claudeClassify : ClaudeReply → SendErr ⊕ JsonFields
  | .transportErr => .inl .transport
  | .readErr => .inl .readBody
  | .non2xx code => .inl (.httpStatus code)
  | .badJson => .inl .parse
  | .noContent => .inl .noContent
  | .content none => .inl .contentParse
  | .content (some f) => .inr f

/-- The observable outcome of `ClaudeClient.SendMessage` (main.go): the
`aiResp` value returned (Go returns it both on success and, as the last
decoded or zero value, on failure), the terminal error if any, and the
final history. -/
structure ClaudeResult where
  value : AIJSONResponse
  err : Option SendErr
  history : List Message

/-- The retry loop of main.go:158-237. `aiResp` is the mutable result
variable that persists across attempts; a decoded verdict that fails
`validateAIResponse` overwrites it and the loop continues. Exiting the
loop appends an assistant entry holding `aiResp.Text` (main.go:235) and
returns with an error. -/
def claudeLoop (maxH : Nat) (env : Nat → ClaudeReply) (hist : List Message) :
    Nat → Nat → AIJSONResponse → Option SendErr → ClaudeResult
  | _, 0, aiResp, lastErr =>
      ⟨aiResp, some (.failedAfterRetries lastErr),
       addMessageToHistory maxH hist ⟨"assistant", aiResp.text, []⟩⟩
  | attempt, remaining + 1, aiResp, _lastErr =>
      match claudeClassify (env attempt) with
      | .inl e => claudeLoop maxH env hist (attempt + 1) remaining aiResp (some e)
      | .inr f =>
          let a := decodeClaudeJSON f
          if validateAIResponse a then ⟨a, none, hist⟩
          else claudeLoop maxH env hist (attempt + 1) remaining a (some .invalidFormat)

/-- `ClaudeClient.SendMessage` (main.go:151-238): append the user entry
to the bounded history, then run the retry loop starting from the
zero-valued `aiResp` (source configuration: `maxRetries = 3`,
`maxMessageHistory = 30`). -/
def claudeSendMessage (maxR maxH : Nat) (hist0 : List Message)
    (message : String) (env : Nat → ClaudeReply) : ClaudeResult :=
  claudeLoop maxH env (addMessageToHistory maxH hist0 ⟨"user", message, []⟩)
    0 maxR ⟨"", "", false, false⟩ none

/-! ## Supporting lemmas -/

theorem addMessageToHistory_length (maxH : Nat) (hist : List Message) (m : Message)
    (hle : hist.length ≤ maxH) :
    (addMessageToHistory maxH hist m).length ≤ maxH := by
  rw [addMessageToHistory]
  by_cases h : maxH < (hist ++ [m]).length
  · rw [if_pos h]
    simp [List.length_tail]
    omega
  · rw [if_neg h]
    simp at h ⊢
    omega

theorem addMessageToHistory_full (maxH : Nat) (hist : List Message) (m : Message)
    (hfull : hist.length = maxH) :
    addMessageToHistory maxH hist m = (hist ++ [m]).tail := by
  rw [addMessageToHistory, if_pos]
  simp
  omega

theorem foldl_addMessageToHistory_length (maxH : Nat) (msgs : List Message) :
    ∀ hist : List Message, hist.length ≤ maxH →
      (msgs.foldl (addMessageToHistory maxH) hist).length ≤ maxH := by
  induction msgs with
  | nil => intro hist h; simpa using h
  | cons m rest ih =>
      intro hist h
      simp only [List.foldl_cons]
      exact ih _ (addMessageToHistory_length maxH hist m h)

theorem processLoop_fst (channelID : String) (snap : Nat) (l : List TgMsg) :
    ∀ (acc : List TgMsg) (cur : String → Nat),
      (processLoop channelID snap l acc cur).1 =
        acc ++ l.filter (fun m => snap < m.id) := by
  induction l with
  | nil => intro acc cur; simp [processLoop]
  | cons m rest ih =>
      intro acc cur
      by_cases hm : snap < m.id
      · rw [processLoop, if_pos hm, ih]
        simp [List.filter_cons, hm]
      · rw [processLoop, if_neg hm, ih]
        simp [List.filter_cons, hm]

theorem processLoop_snd (channelID : String) (snap : Nat) (l : List TgMsg) :
    ∀ (acc : List TgMsg) (cur : String → Nat), snap ≤ cur channelID →
      (processLoop channelID snap l acc cur).2 =
        fun x => if x = channelID
          then (l.map TgMsg.id).foldl max (cur channelID)
          else cur x := by
  induction l with
  | nil =>
      intro acc cur _
      simp only [processLoop, List.map_nil, List.foldl_nil]
      funext x
      by_cases hx : x = channelID <;> simp [hx]
  | cons m rest ih =>
      intro acc cur hsnap
      by_cases hm : snap < m.id
      · rw [processLoop, if_pos hm]
        by_cases hcur : cur channelID < m.id
        · rw [if_pos hcur]
          rw [ih (acc ++ [m]) _ (by simp [le_of_lt hm])]
          simp only [List.map_cons, List.foldl_cons]
          funext x
          by_cases hx : x = channelID
          · simp only [hx, if_pos rfl]
            have : max (cur channelID) m.id = m.id := max_eq_right (le_of_lt hcur)
            simp [this]
          · simp [hx]
        · rw [if_neg hcur]
          rw [ih (acc ++ [m]) cur hsnap]
          simp only [List.map_cons, List.foldl_cons]
          funext x
          by_cases hx : x = channelID
          · simp only [hx, if_pos rfl]
            have : max (cur channelID) m.id = cur channelID :=
              max_eq_left (le_of_not_lt hcur)
            simp [this]
          · simp [hx]
      · rw [processLoop, if_neg hm]
        rw [ih acc cur hsnap]
        have hid : m.id ≤ cur channelID := le_trans (le_of_not_lt hm) hsnap
        simp only [List.map_cons, List.foldl_cons]
        funext x
        by_cases hx : x = channelID
        · simp only [hx, if_pos rfl]
          have : max (cur channelID) m.id = cur channelID := max_eq_left hid
          simp [this]
        · simp [hx]

theorem runMon_enqueueTrace (bw eb : Nat) (ps : List (Nat × Message)) :
    ∀ (cur : String → Nat) (buf : List Message) (d : Nat),
      runMon bw eb ⟨cur, buf, some d⟩ (enqueueTrace ps) =
        (⟨cur, buf ++ ps.map Prod.snd, some (d + ps.length * eb)⟩, []) := by
  induction ps with
  | nil => intro cur buf d; simp [runMon, enqueueTrace]
  | cons p rest ih =>
      intro cur buf d
      simp only [enqueueTrace, List.map_cons, runMon, monStep]
      rw [if_neg (by simp)]
      simp only []
      rw [show (enqueueTrace rest) = rest.map (fun p => MonEvent.enqueue [p.2] p.1) from rfl] at ih
      rw [ih cur (buf ++ [p.2]) (d + eb)]
      simp [List.append_assoc]
      ring

theorem runMon_fire_flush (bw eb : Nat) (cur : String → Nat) (buf : List Message)
    (d t : Nat) (hbuf : buf ≠ []) :
    runMon bw eb ⟨cur, buf, some d⟩ [MonEvent.fire t] = (idleMon cur, [(t, buf)]) := by
  simp [runMon, monStep, hbuf, idleMon]

theorem orLoop_attempts_le (baseD maxH : Nat) (env : Nat → ORReply) (hist : List Message) :
    ∀ (r a : Nat) (l : Option SendErr),
      (openRouterLoop baseD maxH env hist a r l).attempts ≤ r := by
  intro r
  induction r with
  | zero => intro a l; simp [openRouterLoop]
  | succ k ih =>
      intro a l
      rw [openRouterLoop]
      cases hc : classifyOR (env a) with
      | error e => simpa using Nat.succ_le_succ (ih (a + 1) (some e))
      | ok res => simp

theorem orLoop_delays (baseD maxH : Nat) (env : Nat → ORReply) (hist : List Message) :
    ∀ (r a : Nat) (l : Option SendErr),
      (openRouterLoop baseD maxH env hist a r l).delays =
        delaysFor baseD a (openRouterLoop baseD maxH env hist a r l).attempts := by
  intro r
  induction r with
  | zero => intro a l; simp [openRouterLoop, delaysFor]
  | succ k ih =>
      intro a l
      rw [openRouterLoop]
      cases hc : classifyOR (env a) with
      | error e =>
          simp only []
          rw [ih (a + 1) (some e), delaysFor]
          conv_rhs => rw [delaysFor, List.range'_succ, List.filterMap_cons]
          by_cases ha : a = 0
          · simp [ha]
          · simp [ha]
      | ok res =>
          simp only []
          conv_rhs => rw [delaysFor, List.range'_succ, List.filterMap_cons]
          by_cases ha : a = 0
          · simp [ha, delaysFor]
          · simp [ha, delaysFor]

theorem delaysFor_zero (baseD : Nat) :
    ∀ k : Nat, delaysFor baseD 0 k = (List.range (k - 1)).map (fun i => 2 ^ i * baseD) := by
  have hrange : ∀ n : Nat, List.range' 0 n = List.range n := by
    intro n; rw [List.range_eq_range']
  intro k
  induction k with
  | zero => simp [delaysFor]
  | succ j ih =>
      rw [delaysFor, hrange, List.range_succ, List.filterMap_append]
      rw [delaysFor, hrange] at ih
      rw [ih]
      cases j with
      | zero => simp
      | succ i =>
          simp only [Nat.succ_sub_one]
          rw [List.range_succ, List.map_append]
          simp

theorem orLoop_all_fail (baseD maxH : Nat) (env : Nat → ORReply) (hist : List Message) :
    ∀ (r : Nat), 0 < r → ∀ (a : Nat) (l : Option SendErr),
      (∀ i, a ≤ i → i < a + r → ∃ e, classifyOR (env i) = Except.error e) →
      ∃ e, classifyOR (env (a + r - 1)) = Except.error e ∧
        (openRouterLoop baseD maxH env hist a r l).result = none ∧
        (openRouterLoop baseD maxH env hist a r l).err =
          some (SendErr.maxRetriesExceeded (some e)) ∧
        (openRouterLoop baseD maxH env hist a r l).attempts = r := by
  intro r
  induction r with
  | zero => intro h; omega
  | succ k ih =>
      intro _ a l hall
      obtain ⟨e0, he0⟩ := hall a (le_refl a) (by omega)
      cases k with
      | zero =>
          refine ⟨e0, by simpa using he0, ?_⟩
          rw [openRouterLoop, he0]
          simp [openRouterLoop]
      | succ j =>
          obtain ⟨e, he, hres, herr, hatt⟩ :=
            ih (by omega) (a + 1) (some e0)
              (fun i hi1 hi2 => hall i (by omega) (by omega))
          have hidx : a + 1 + (j + 1) - 1 = a + (j + 1 + 1) - 1 := by omega
          refine ⟨e, by rw [← hidx]; exact he, ?_⟩
          rw [openRouterLoop, he0]
          simp only []
          exact ⟨hres, herr, by rw [hatt]⟩

theorem orLoop_history (baseD maxH : Nat) (env : Nat → ORReply) (hist : List Message) :
    ∀ (r a : Nat) (l : Option SendErr),
      ((openRouterLoop baseD maxH env hist a r l).err = none →
        ∃ res, (openRouterLoop baseD maxH env hist a r l).result = some res ∧
          (openRouterLoop baseD maxH env hist a r l).history =
            addMessageToHistory maxH hist ⟨"assistant", assistantSummary res, []⟩)
      ∧ ((openRouterLoop baseD maxH env hist a r l).err ≠ none →
          (openRouterLoop baseD maxH env hist a r l).history = hist ∧
          (openRouterLoop baseD maxH env hist a r l).result = none) := by
  intro r
  induction r with
  | zero =>
      intro a l
      constructor
      · intro h; simp [openRouterLoop] at h
      · intro _; simp [openRouterLoop]
  | succ k ih =>
      intro a l
      rw [openRouterLoop]
      cases hc : classifyOR (env a) with
      | error e => simpa using ih (a + 1) (some e)
      | ok res =>
          constructor
          · intro _; exact ⟨res, rfl, rfl⟩
          · intro h; simp at h

theorem claudeLoop_success_valid (maxH : Nat) (env : Nat → ClaudeReply) (hist : List Message) :
    ∀ (r a : Nat) (ai : AIJSONResponse) (l : Option SendErr),
      (claudeLoop maxH env hist a r ai l).err = none →
      validateAIResponse (claudeLoop maxH env hist a r ai l).value = true := by
  intro r
  induction r with
  | zero => intro a ai l h; simp [claudeLoop] at h
  | succ k ih =>
      intro a ai l h
      rw [claudeLoop] at h ⊢
      cases hc : claudeClassify (env a) with
      | inl e =>
          rw [hc] at h
          exact ih (a + 1) ai (some e) h
      | inr f =>
          rw [hc] at h
          by_cases hv : validateAIResponse (decodeClaudeJSON f) = true
          · simp only [hv, if_true]
          · simp [hv] at h ⊢
            exact ih (a + 1) (decodeClaudeJSON f) (some SendErr.invalidFormat) h

theorem claudeLoop_history (maxH : Nat) (env : Nat → ClaudeReply) (hist : List Message) :
    ∀ (r a : Nat) (ai : AIJSONResponse) (l : Option SendErr),
      ((claudeLoop maxH env hist a r ai l).err = none →
        (claudeLoop maxH env hist a r ai l).history = hist)
      ∧ ((claudeLoop maxH env hist a r ai l).err ≠ none →
          (claudeLoop maxH env hist a r ai l).history =
            addMessageToHistory maxH hist
              ⟨"assistant", (claudeLoop maxH env hist a r ai l).value.text, []⟩) := by
  intro r
  induction r with
  | zero =>
      intro a ai l
      constructor
      · intro h; simp [claudeLoop] at h
      · intro _; simp [claudeLoop]
  | succ k ih =>
      intro a ai l
      rw [claudeLoop]
      cases hc : claudeClassify (env a) with
      | inl e => simpa using ih (a + 1) ai (some e)
      | inr f =>
          by_cases hv : validateAIResponse (decodeClaudeJSON f) = true
          · simp [hv]
          · simp only [hv, if_false]
            simpa using ih (a + 1) (decodeClaudeJSON f) (some SendErr.invalidFormat)

theorem runMon_append (bw eb : Nat) (es1 es2 : List MonEvent) :
    ∀ s : MonState,
      runMon bw eb s (es1 ++ es2) =
        ((runMon bw eb (runMon bw eb s es1).1 es2).1,
         (runMon bw eb s es1).2 ++ (runMon bw eb (runMon bw eb s es1).1 es2).2) := by
  induction es1 with
  | nil => intro s; simp [runMon]
  | cons e rest ih =>
      intro s
      simp only [List.cons_append, runMon, List.append_eq]
      rw [ih (monStep bw eb s e).1]
      simp [List.append_assoc]

theorem le_foldl_max (l : List Nat) : ∀ a : Nat, a ≤ l.foldl max a := by
  induction l with
  | nil => intro a; simp
  | cons x rest ih =>
      intro a
      simp only [List.foldl_cons]
      exact le_trans (le_max_left a x) (ih (max a x))

theorem validate_text_ne (r : AIJSONResponse) (h : validateAIResponse r = true) :
    r.text ≠ "" := by
  rw [validateAIResponse] at h
  simp only [Bool.and_eq_true, bne_iff_ne, ne_eq] at h
  exact h.1.1

theorem orSend_history_length (maxR baseD maxH : Nat) (hist0 : List Message)
    (um : String) (env : Nat → ORReply) (hb : hist0.length ≤ maxH) :
    (openRouterSendMessage maxR baseD maxH hist0 um env).history.length ≤ maxH := by
  rw [openRouterSendMessage]
  have hb1 : (addMessageToHistory maxH hist0 ⟨"user", um, []⟩).length ≤ maxH :=
    addMessageToHistory_length maxH hist0 _ hb
  cases herr : (openRouterLoop baseD maxH env
      (addMessageToHistory maxH hist0 ⟨"user", um, []⟩) 0 maxR none).err with
  | none =>
      obtain ⟨res, _, hh⟩ :=
        (orLoop_history baseD maxH env _ maxR 0 none).1 herr
      rw [hh]
      exact addMessageToHistory_length maxH _ _ hb1
  | some e =>
      have hh :=
        ((orLoop_history baseD maxH env _ maxR 0 none).2 (by rw [herr]; simp)).1
      rw [hh]
      exact hb1

theorem claudeSend_history_length (maxR maxH : Nat) (hist0 : List Message)
    (um : String) (env : Nat → ClaudeReply) (hb : hist0.length ≤ maxH) :
    (claudeSendMessage maxR maxH hist0 um env).history.length ≤ maxH := by
  rw [claudeSendMessage]
  have hb1 : (addMessageToHistory maxH hist0 ⟨"user", um, []⟩).length ≤ maxH :=
    addMessageToHistory_length maxH hist0 _ hb
  cases herr : (claudeLoop maxH env (addMessageToHistory maxH hist0 ⟨"user", um, []⟩)
      0 maxR ⟨"", "", false, false⟩ none).err with
  | none =>
      have hh :=
        (claudeLoop_history maxH env _ maxR 0 ⟨"", "", false, false⟩ none).1 herr
      rw [hh]
      exact hb1
  | some e =>
      have hh :=
        (claudeLoop_history maxH env _ maxR 0 ⟨"", "", false, false⟩ none).2
          (by rw [herr]; simp)
      rw [hh]
      exact addMessageToHistory_length maxH _ _ hb1

/-! ## Claim theorems -/

/-- C1: Batch Scheduler timing. Enqueuing into an Idle scheduler arms the
deadline at `now + baseWindow`; enqueuing while a window is Open re-arms
at `existing deadline + extendBy` (independent of `now`); consequently,
for N ≥ 1 items enqueued in rapid succession — the first at `t0`, each
later one before the deadline current at its arrival (`beforeDeadlines`) —
the state after the burst holds all N items with deadline
`t0 + baseWindow + (N-1)·extendBy`, and the timer fire at that instant
flushes exactly one batch containing all N items in arrival order,
leaving the scheduler Idle. -/
theorem batch_scheduler_timing (bw eb : Nat) (cur : String → Nat) (t0 : Nat)
    (m0 : Message) (ps : List (Nat × Message))
    (htimes : beforeDeadlines eb (t0 + bw) (ps.map Prod.fst)) :
    (runMon bw eb (idleMon cur) (enqueueTrace ((t0, m0) :: ps))).1 =
      ⟨cur, m0 :: ps.map Prod.snd, some (t0 + bw + ps.length * eb)⟩
    ∧ runMon bw eb (idleMon cur)
        (enqueueTrace ((t0, m0) :: ps) ++ [MonEvent.fire (t0 + bw + ps.length * eb)]) =
      (idleMon cur, [(t0 + bw + ps.length * eb, m0 :: ps.map Prod.snd)]) := by
  have hstep : monStep bw eb (idleMon cur) (MonEvent.enqueue [m0] t0) =
      (⟨cur, [m0], some (t0 + bw)⟩, none) := by
    rw [monStep]
    rw [if_neg (by simp)]
    rfl
  have h1 : runMon bw eb (idleMon cur) (enqueueTrace ((t0, m0) :: ps)) =
      (⟨cur, m0 :: ps.map Prod.snd, some (t0 + bw + ps.length * eb)⟩, []) := by
    show runMon bw eb (idleMon cur)
      (MonEvent.enqueue [m0] t0 :: enqueueTrace ps) = _
    rw [runMon, hstep]
    rw [runMon_enqueueTrace bw eb ps cur [m0] (t0 + bw)]
    simp
  refine ⟨by rw [h1], ?_⟩
  rw [runMon_append, h1]
  rw [runMon_fire_flush bw eb cur (m0 :: ps.map Prod.snd) (t0 + bw + ps.length * eb)
    (t0 + bw + ps.length * eb) (by simp)]
  simp

/-- Witness for C1, instantiating the spec's own example: baseWindow 30,
extendBy 3, items at t=0 and t=5 → a single flush at t=33 with both
items. -/
theorem batch_scheduler_timing_witness :
    beforeDeadlines 3 (0 + 30) ([(5, Message.mk "user" "b" [])].map Prod.fst)
    ∧ runMon 30 3 (idleMon (fun _ => 0))
        (enqueueTrace [(0, Message.mk "user" "a" []), (5, Message.mk "user" "b" [])] ++
          [MonEvent.fire 33]) =
      (idleMon (fun _ => 0),
       [(33, [Message.mk "user" "a" [], Message.mk "user" "b" []])]) := by
  have ht : beforeDeadlines 3 (0 + 30) ([(5, Message.mk "user" "b" [])].map Prod.fst) := by
    refine ⟨by omega, trivial⟩
  refine ⟨ht, ?_⟩
  have h := (batch_scheduler_timing 30 3 (fun _ => 0) 0 (Message.mk "user" "a" [])
    [(5, Message.mk "user" "b" [])] ht).2
  simpa using h

/-- C7: Batch flush postcondition. Immediately after any timer fire the
buffer is empty and the timer is disarmed; and starting from Idle, any
sequence of events containing no non-empty enqueue (timer fires, empty
fetch ticks) flushes nothing and leaves the scheduler Idle — so a batch
is flushed at most once and the post-flush state persists until the next
item is enqueued. -/
theorem batch_flush_postcondition (bw eb : Nat) :
    (∀ (s : MonState) (now d : Nat), s.batchDeadline = some d →
        (monStep bw eb s (MonEvent.fire now)).1.messageBuffer = [] ∧
        (monStep bw eb s (MonEvent.fire now)).1.batchDeadline = none)
    ∧ (∀ (cur : String → Nat) (evs : List MonEvent),
        (∀ e ∈ evs, ∀ msgs now, e = MonEvent.enqueue msgs now → msgs = []) →
        runMon bw eb (idleMon cur) evs = (idleMon cur, [])) := by
  constructor
  · intro s now d hd
    rw [monStep, hd]
    by_cases hb : s.messageBuffer = []
    · rw [if_pos hb]
      exact ⟨hb, rfl⟩
    · rw [if_neg hb]
      exact ⟨rfl, rfl⟩
  · intro cur evs
    induction evs with
    | nil => intro _; rfl
    | cons e rest ih =>
        intro hall
        have hstep : monStep bw eb (idleMon cur) e = (idleMon cur, none) := by
          cases e with
          | enqueue msgs now =>
              have : msgs = [] := hall _ (by simp) msgs now rfl
              rw [monStep, if_pos this]
          | fire now => rw [monStep]; rfl
        rw [runMon, hstep]
        rw [ih (fun e' he' => hall e' (by simp [he']))]
        rfl

/-- Witness for C7 at a concrete open state and a concrete fire-only
trace. -/
theorem batch_flush_postcondition_witness :
    ((monStep 30 3 ⟨fun _ => 0, [Message.mk "user" "a" []], some 42⟩
        (MonEvent.fire 42)).1.messageBuffer = [] ∧
      (monStep 30 3 ⟨fun _ => 0, [Message.mk "user" "a" []], some 42⟩
        (MonEvent.fire 42)).1.batchDeadline = none)
    ∧ runMon 30 3 (idleMon (fun _ => 0)) [MonEvent.fire 1, MonEvent.fire 2] =
        (idleMon (fun _ => 0), []) := by
  refine ⟨(batch_flush_postcondition 30 3).1 _ 42 42 rfl, ?_⟩
  refine (batch_flush_postcondition 30 3).2 _ _ ?_
  intro e he msgs now heq
  simp only [List.mem_cons, List.mem_singleton, List.not_mem_nil, or_false] at he
  rcases he with rfl | rfl <;> exact MonEvent.noConfusion heq

/-- C9: No item loss or duplication at the flush boundary. From any open
window (buffer `B`, armed deadline), whether an enqueue of item `m` is
handled before the pending fire (the code drains the fired timer and
extends the deadline) or after it (the fire flushes `B` and the enqueue
opens a fresh window that later flushes), the completed trace flushes
`m` exactly once more than it already occurred in `B` — never zero
times, never twice. -/
theorem enqueue_fire_interleaving (bw eb : Nat) (cur : String → Nat)
    (B : List Message) (d : Nat) (m : Message) (t1 t2 t3 : Nat) :
    (((runMon bw eb ⟨cur, B, some d⟩
        [MonEvent.enqueue [m] t1, MonEvent.fire t2]).2.map Prod.snd).flatten.count m
      = B.count m + 1)
    ∧ (((runMon bw eb ⟨cur, B, some d⟩
        [MonEvent.fire t1, MonEvent.enqueue [m] t2, MonEvent.fire t3]).2.map Prod.snd).flatten.count m
      = B.count m + 1) := by
  constructor
  · have h1 : monStep bw eb ⟨cur, B, some d⟩ (MonEvent.enqueue [m] t1) =
        (⟨cur, B ++ [m], some (d + eb)⟩, none) := by
      rw [monStep, if_neg (by simp)]
    rw [runMon, h1]
    rw [runMon, show monStep bw eb ⟨cur, B ++ [m], some (d + eb)⟩ (MonEvent.fire t2) =
      (⟨cur, [], none⟩, some (t2, B ++ [m])) from by rw [monStep, if_neg (by simp)]]
    simp [runMon]
  · by_cases hB : B = []
    · subst hB
      rw [runMon, show monStep bw eb ⟨cur, [], some d⟩ (MonEvent.fire t1) =
        (⟨cur, [], none⟩, none) from by rw [monStep, if_pos rfl]]
      rw [runMon, show monStep bw eb ⟨cur, [], none⟩ (MonEvent.enqueue [m] t2) =
        (⟨cur, [m], some (t2 + bw)⟩, none) from by rw [monStep, if_neg (by simp)]; rfl]
      rw [runMon, show monStep bw eb ⟨cur, [m], some (t2 + bw)⟩ (MonEvent.fire t3) =
        (⟨cur, [], none⟩, some (t3, [m])) from by rw [monStep, if_neg (by simp)]]
      simp [runMon]
    · rw [runMon, show monStep bw eb ⟨cur, B, some d⟩ (MonEvent.fire t1) =
        (⟨cur, [], none⟩, some (t1, B)) from by rw [monStep, if_neg hB]]
      rw [runMon, show monStep bw eb ⟨cur, [], none⟩ (MonEvent.enqueue [m] t2) =
        (⟨cur, [m], some (t2 + bw)⟩, none) from by rw [monStep, if_neg (by simp)]; rfl]
      rw [runMon, show monStep bw eb ⟨cur, [m], some (t2 + bw)⟩ (MonEvent.fire t3) =
        (⟨cur, [], none⟩, some (t3, [m])) from by rw [monStep, if_neg (by simp)]]
      simp [runMon, List.count_append]

/-- C10: a timer fire with an empty buffer makes no classification call
(no batch is handed to the flush path) and only clears the timer state:
the cursor map and the (empty) buffer are untouched and the scheduler is
back to Idle. -/
theorem empty_buffer_fire (bw eb : Nat) (s : MonState) (now d : Nat)
    (hbuf : s.messageBuffer = []) (hd : s.batchDeadline = some d) :
    monStep bw eb s (MonEvent.fire now) = ({ s with batchDeadline := none }, none) := by
  rw [monStep, hd, if_pos hbuf]

/-- Witness for C10 at a concrete armed-but-empty state. -/
theorem empty_buffer_fire_witness :
    monStep 30 3 ⟨fun _ => 7, [], some 42⟩ (MonEvent.fire 42) =
      (⟨fun _ => 7, [], none⟩, none) :=
  empty_buffer_fire 30 3 ⟨fun _ => 7, [], some 42⟩ 42 42 rfl rfl

/-- C2 counterexample: the claim's per-item rule ("accepted iff strictly
greater than the stored watermark; any item with sequenceID ≤ watermark
is rejected") fails on the code. With watermark 0 and a fetched slice
holding the ID 5 twice, the code admits both copies (the second has
sequenceID 5 ≤ watermark 5 at its admission, yet is accepted because
admission compares against the call-entry snapshot 0), while the claim's
rule admits only one. -/
theorem cursor_admission_cex :
    ((processNewMessages "X" [⟨5, "a"⟩, ⟨5, "b"⟩] (fun _ => 0)).1.map TgMsg.id = [5, 5])
    ∧ ((processNewMessagesPerItemSpec "X" [⟨5, "a"⟩, ⟨5, "b"⟩] (fun _ => 0)).1.map TgMsg.id
        = [5]) := by
  exact ⟨rfl, rfl⟩

/-- C2 amended: within one `processNewMessages` call, admission compares
against the watermark *snapshot* taken at call entry: the accepted items
are exactly those of the reversed (oldest-first) slice whose ID strictly
exceeds the snapshot — so an item with ID ≤ the stored watermark at call
entry is rejected with no state change, but a second in-slice item whose
ID exceeds only the snapshot is also admitted. The stored watermark for
the source becomes the maximum of the snapshot and all fetched IDs
(hence equals the maximum admitted so far and never regresses), and no
other source's watermark changes. When the slice IDs are strictly
increasing after reversal — the normalized oldest-first delivery — this
coincides with the claim's per-item rule. -/
theorem cursor_admission_amended (channelID : String) (msgs : List TgMsg)
    (cur : String → Nat) :
    processNewMessages channelID msgs cur =
      (msgs.reverse.filter (fun m => cur channelID < m.id),
       fun x => if x = channelID
         then (msgs.reverse.map TgMsg.id).foldl max (cur channelID)
         else cur x)
    ∧ cur channelID ≤ (processNewMessages channelID msgs cur).2 channelID := by
  have h1 := processLoop_fst channelID (cur channelID) msgs.reverse [] cur
  have h2 := processLoop_snd channelID (cur channelID) msgs.reverse [] cur (le_refl _)
  have hmain : processNewMessages channelID msgs cur =
      (msgs.reverse.filter (fun m => cur channelID < m.id),
       fun x => if x = channelID
         then (msgs.reverse.map TgMsg.id).foldl max (cur channelID)
         else cur x) := by
    rw [processNewMessages]
    rw [Prod.ext_iff]
    exact ⟨by rw [h1]; simp, by rw [h2]⟩
  refine ⟨hmain, ?_⟩
  rw [hmain]
  simp only [if_pos rfl]
  exact le_foldl_max _ _

/-- C3: Relay Decision Logic is a pure function of the classifier
verdict: an unchanged status produces no relay action for either value
of the danger flag; a changed status produces a send with
`silent = !danger` and body = indicator glyph ("🚨" on danger, "✅"
otherwise) followed by the judgment text. -/
theorem relay_decision_logic (response : AIJSONResponse) :
    (response.statusChanged = false → relayDecision response = none)
    ∧ (response.statusChanged = true →
        relayDecision response =
          some { send := true, silent := !response.danger,
                 body := (if response.danger then "🚨" else "✅") ++ " " ++ response.text }) := by
  constructor
  · intro h
    rw [relayDecision, h]
    simp
  · intro h
    rw [relayDecision, h]
    simp [formatAIResponse]

/-- Witness for C3 on a concrete danger verdict: non-silent send with
the alert glyph. -/
theorem relay_decision_logic_witness :
    relayDecision ⟨"judgment", "", true, true⟩ =
      some { send := true, silent := false, body := "🚨 judgment" } := by
  have h := (relay_decision_logic ⟨"judgment", "", true, true⟩).2 rfl
  rw [h]
  decide

/-- C4: Classifier history bound. Starting within the bound, any number
of `AddMessageToHistory` calls keeps the history length ≤ the configured
maximum; when the bound would be exceeded the oldest entry (the list
head, by insertion order, regardless of role) is the one evicted; and
both embedded `Send` operations preserve the bound. -/
theorem classifier_history_bound (maxH : Nat) :
    (∀ (hist msgs : List Message), hist.length ≤ maxH →
        (msgs.foldl (addMessageToHistory maxH) hist).length ≤ maxH)
    ∧ (∀ (hist : List Message) (m : Message), hist.length = maxH →
        addMessageToHistory maxH hist m = (hist ++ [m]).tail)
    ∧ (∀ (maxR baseD : Nat) (hist0 : List Message) (um : String) (env : Nat → ORReply),
        hist0.length ≤ maxH →
        (openRouterSendMessage maxR baseD maxH hist0 um env).history.length ≤ maxH)
    ∧ (∀ (maxR : Nat) (hist0 : List Message) (um : String) (env : Nat → ClaudeReply),
        hist0.length ≤ maxH →
        (claudeSendMessage maxR maxH hist0 um env).history.length ≤ maxH) := by
  refine ⟨?_, ?_, ?_, ?_⟩
  · intro hist msgs h
    exact foldl_addMessageToHistory_length maxH msgs hist h
  · intro hist m h
    exact addMessageToHistory_full maxH hist m h
  · intro maxR baseD hist0 um env h
    exact orSend_history_length maxR baseD maxH hist0 um env h
  · intro maxR hist0 um env h
    exact claudeSend_history_length maxR maxH hist0 um env h

/-- Witness for C4 with the claude.go bound 20: a full history of 20
entries evicts its head on the 21st insertion, and concrete `Send` runs
stay within the bound. -/
theorem classifier_history_bound_witness :
    ((List.replicate 21 (Message.mk "user" "x" [])).foldl
        (addMessageToHistory 20) []).length ≤ 20
    ∧ addMessageToHistory 1 [Message.mk "system" "old" []] (Message.mk "user" "new" [])
        = ([Message.mk "system" "old" []] ++ [Message.mk "user" "new" []]).tail
    ∧ (openRouterSendMessage 2 1 20 [] "hello" (fun _ => ORReply.transportErr)).history.length ≤ 20
    ∧ (claudeSendMessage 3 20 [] "hello" (fun _ => ClaudeReply.transportErr)).history.length ≤ 20 := by
  refine ⟨(classifier_history_bound 20).1 [] _ (by simp),
    (classifier_history_bound 1).2.1 _ _ (by simp),
    (classifier_history_bound 20).2.2.1 2 1 [] "hello" _ (by simp),
    (classifier_history_bound 20).2.2.2 3 [] "hello" _ (by simp)⟩

/-- C5 counterexample: the cited `OpenRouterClient.SendMessage` returns
success with default/empty fields for a reply whose content is
well-formed JSON *missing* the `text` field: the inner unmarshal
succeeds, no non-empty-text validation is performed, and the call
returns `text = ""` with no error on the first attempt. -/
theorem classifier_validation_cex :
    (openRouterSendMessage 30 1 20 [] "status?"
        (fun _ => ORReply.content (some ⟨none, none, some true, some true⟩))).result
      = some ⟨"", "", true, true⟩
    ∧ (openRouterSendMessage 30 1 20 [] "status?"
        (fun _ => ORReply.content (some ⟨none, none, some true, some true⟩))).err
      = none := by
  exact ⟨rfl, rfl⟩

/-- C5 amended: a reply that is not well-formed JSON (outer or inner) is
a retryable failure for the OpenRouter client, and a run in which every
attempt fails never surfaces success; the Claude/ChatGPT variant
additionally validates (`validateAIResponse`) and never returns success
with an empty `text`; but the OpenRouter client performs no such
validation — a well-formed JSON reply missing `text` is surfaced as
success with empty fields (see the counterexample). -/
theorem classifier_validation_amended :
    (classifyOR ORReply.badJson = Except.error SendErr.parse
      ∧ classifyOR (ORReply.content none) = Except.error SendErr.contentParse)
    ∧ (∀ (maxR baseD maxH : Nat) (hist0 : List Message) (um : String)
        (env : Nat → ORReply),
        (∀ i, i < maxR → ∃ e, classifyOR (env i) = Except.error e) →
        (openRouterSendMessage maxR baseD maxH hist0 um env).result = none
        ∧ (openRouterSendMessage maxR baseD maxH hist0 um env).err ≠ none)
    ∧ (∀ (maxR maxH : Nat) (hist0 : List Message) (um : String)
        (env : Nat → ClaudeReply),
        (claudeSendMessage maxR maxH hist0 um env).err = none →
        (claudeSendMessage maxR maxH hist0 um env).value.text ≠ "") := by
  refine ⟨⟨rfl, rfl⟩, ?_, ?_⟩
  · intro maxR baseD maxH hist0 um env hall
    cases maxR with
    | zero => exact ⟨rfl, by rw [show (openRouterSendMessage 0 baseD maxH hist0 um env).err
        = some (SendErr.maxRetriesExceeded none) from rfl]; simp⟩
    | succ n =>
        obtain ⟨e, _, hres, herr, _⟩ :=
          orLoop_all_fail baseD maxH env
            (addMessageToHistory maxH hist0 ⟨"user", um, []⟩) (n + 1) (by omega) 0 none
            (fun i _ h2 => hall i (by omega))
        exact ⟨hres, by rw [show (openRouterSendMessage (n + 1) baseD maxH hist0 um env).err
          = (openRouterLoop baseD maxH env
              (addMessageToHistory maxH hist0 ⟨"user", um, []⟩) 0 (n + 1) none).err
          from rfl, herr]; simp⟩
  · intro maxR maxH hist0 um env h
    exact validate_text_ne _
      (claudeLoop_success_valid maxH env
        (addMessageToHistory maxH hist0 ⟨"user", um, []⟩) maxR 0 ⟨"", "", false, false⟩ none h)

/-- Witness for the amended C5: an all-malformed-reply OpenRouter run
surfaces no success, and a successful Claude run has non-empty text. -/
theorem classifier_validation_amended_witness :
    ((openRouterSendMessage 3 1 20 [] "q" (fun _ => ORReply.content none)).result = none
      ∧ (openRouterSendMessage 3 1 20 [] "q" (fun _ => ORReply.content none)).err ≠ none)
    ∧ (claudeSendMessage 3 30 [] "q"
        (fun _ => ClaudeReply.content (some ⟨some "ok", none, some false, some false⟩))).value.text
      ≠ "" := by
  refine ⟨classifier_validation_amended.2.1 3 1 20 [] "q" _
      (fun i _ => ⟨SendErr.contentParse, rfl⟩),
    classifier_validation_amended.2.2 3 30 [] "q" _ rfl⟩

/-- C6: Classifier retry policy of `OpenRouterClient.SendMessage`: at
most `maxRetries` attempts are made; the sleeps performed are exactly
`baseDelay × 2^(attempt-1)` for each attempt after the first ("attempt"
being the code's 0-based loop counter, so the k-th sleep is
`baseDelay × 2^(k-1)` before attempt k); and a run in which every
attempt fails returns no result and a terminal error wrapping the last
underlying failure. -/
theorem retry_policy (maxR baseD maxH : Nat) (hist0 : List Message) (um : String)
    (env : Nat → ORReply) :
    (openRouterSendMessage maxR baseD maxH hist0 um env).attempts ≤ maxR
    ∧ (openRouterSendMessage maxR baseD maxH hist0 um env).delays =
        (List.range ((openRouterSendMessage maxR baseD maxH hist0 um env).attempts - 1)).map
          (fun i => 2 ^ i * baseD)
    ∧ (0 < maxR →
        (∀ i, i < maxR → ∃ e, classifyOR (env i) = Except.error e) →
        ∃ e, classifyOR (env (maxR - 1)) = Except.error e ∧
          (openRouterSendMessage maxR baseD maxH hist0 um env).err =
            some (SendErr.maxRetriesExceeded (some e)) ∧
          (openRouterSendMessage maxR baseD maxH hist0 um env).result = none) := by
  refine ⟨orLoop_attempts_le baseD maxH env _ maxR 0 none, ?_, ?_⟩
  · rw [show (openRouterSendMessage maxR baseD maxH hist0 um env) =
      openRouterLoop baseD maxH env
        (addMessageToHistory maxH hist0 ⟨"user", um, []⟩) 0 maxR none from rfl]
    rw [orLoop_delays baseD maxH env _ maxR 0 none]
    exact delaysFor_zero baseD _
  · intro hpos hall
    obtain ⟨e, he, hres, herr, _⟩ :=
      orLoop_all_fail baseD maxH env
        (addMessageToHistory maxH hist0 ⟨"user", um, []⟩) maxR hpos 0 none
        (fun i _ h2 => hall i (by omega))
    exact ⟨e, by simpa using he, herr, hres⟩

/-- Witness for C6: two attempts, both transport failures — one sleep of
one time unit, terminal error carrying the transport failure. -/
theorem retry_policy_witness :
    (openRouterSendMessage 2 1 20 [] "q" (fun _ => ORReply.transportErr)).attempts ≤ 2
    ∧ (openRouterSendMessage 2 1 20 [] "q" (fun _ => ORReply.transportErr)).delays =
        (List.range ((openRouterSendMessage 2 1 20 [] "q"
          (fun _ => ORReply.transportErr)).attempts - 1)).map (fun i => 2 ^ i * 1)
    ∧ ∃ e, classifyOR ORReply.transportErr = Except.error e ∧
        (openRouterSendMessage 2 1 20 [] "q" (fun _ => ORReply.transportErr)).err =
          some (SendErr.maxRetriesExceeded (some e)) ∧
        (openRouterSendMessage 2 1 20 [] "q" (fun _ => ORReply.transportErr)).result = none := by
  have h := retry_policy 2 1 20 [] "q" (fun _ => ORReply.transportErr)
  exact ⟨h.1, h.2.1, h.2.2 (by omega) (fun i _ => ⟨SendErr.transport, rfl⟩)⟩

/-- C8 counterexample: the cited main.go `ClaudeClient.SendMessage`
violates both halves of the claim at concrete inputs. A run that
succeeds on the first attempt (the provider replies with the parsed
verdict "all clear") ends with `err = none` and the history holding
*only* the appended user entry — no synthesized assistant entry on
success, where the claim requires one. A run in which every attempt is a
transport failure ends with a terminal error and the history holding the
user entry *plus* a synthesized assistant entry (with the zero-valued
result text), where the claim says only the user entry is retained and
nothing is synthesized on final failure. -/
theorem send_history_cex :
    (claudeSendMessage 3 30 [] "hi"
        (fun _ => ClaudeReply.content (some ⟨some "all clear", none, some false, some true⟩))).err
      = none
    ∧ (claudeSendMessage 3 30 [] "hi"
        (fun _ => ClaudeReply.content (some ⟨some "all clear", none, some false, some true⟩))).history
      = [⟨"user", "hi", []⟩]
    ∧ (claudeSendMessage 3 30 [] "hi" (fun _ => ClaudeReply.transportErr)).err
      = some (SendErr.failedAfterRetries (some SendErr.transport))
    ∧ (claudeSendMessage 3 30 [] "hi" (fun _ => ClaudeReply.transportErr)).history
      = [⟨"user", "hi", []⟩, ⟨"assistant", "", []⟩] := by
  exact ⟨rfl, rfl, rfl, rfl⟩

/-- C8 amended: both clients append the user entry to the bounded
history before dispatch and retain it on failure. The OpenRouter client
behaves as the claim states: on success it appends a synthesized
assistant entry summarizing the result, on final failure it appends
nothing further. The main.go Claude client inverts the assistant append:
on success the history is left with just the user entry, and on final
failure an assistant entry holding the last decoded (possibly empty)
result text is appended. -/
theorem send_history_amended (maxR baseD maxH : Nat) (hist0 : List Message) (um : String) :
    (∀ env : Nat → ORReply,
      ((openRouterSendMessage maxR baseD maxH hist0 um env).err = none →
        ∃ res, (openRouterSendMessage maxR baseD maxH hist0 um env).result = some res ∧
          (openRouterSendMessage maxR baseD maxH hist0 um env).history =
            addMessageToHistory maxH (addMessageToHistory maxH hist0 ⟨"user", um, []⟩)
              ⟨"assistant", assistantSummary res, []⟩)
      ∧ ((openRouterSendMessage maxR baseD maxH hist0 um env).err ≠ none →
          (openRouterSendMessage maxR baseD maxH hist0 um env).history =
            addMessageToHistory maxH hist0 ⟨"user", um, []⟩))
    ∧ (∀ env : Nat → ClaudeReply,
      ((claudeSendMessage maxR maxH hist0 um env).err = none →
        (claudeSendMessage maxR maxH hist0 um env).history =
          addMessageToHistory maxH hist0 ⟨"user", um, []⟩)
      ∧ ((claudeSendMessage maxR maxH hist0 um env).err ≠ none →
          (claudeSendMessage maxR maxH hist0 um env).history =
            addMessageToHistory maxH (addMessageToHistory maxH hist0 ⟨"user", um, []⟩)
              ⟨"assistant", (claudeSendMessage maxR maxH hist0 um env).value.text, []⟩)) := by
  constructor
  · intro env
    have h := orLoop_history baseD maxH env
      (addMessageToHistory maxH hist0 ⟨"user", um, []⟩) maxR 0 none
    exact ⟨h.1, fun hn => (h.2 hn).1⟩
  · intro env
    have h := claudeLoop_history maxH env
      (addMessageToHistory maxH hist0 ⟨"user", um, []⟩) maxR 0 ⟨"", "", false, false⟩ none
    exact ⟨h.1, h.2⟩

/-- Witness for the amended C8: concrete all-failing runs — the
OpenRouter history retains exactly the user entry, the Claude history
additionally gains the assistant entry on the failure path. -/
theorem send_history_amended_witness :
    (openRouterSendMessage 1 1 20 [] "u" (fun _ => ORReply.transportErr)).history =
      addMessageToHistory 20 [] ⟨"user", "u", []⟩
    ∧ (claudeSendMessage 1 30 [] "u" (fun _ => ClaudeReply.transportErr)).history =
        addMessageToHistory 30 (addMessageToHistory 30 [] ⟨"user", "u", []⟩)
          ⟨"assistant",
           (claudeSendMessage 1 30 [] "u" (fun _ => ClaudeReply.transportErr)).value.text, []⟩ := by
  refine ⟨((send_history_amended 1 1 20 [] "u").1 _).2 ?_,
    ((send_history_amended 1 1 30 [] "u").2 _).2 ?_⟩
  · rw [show (openRouterSendMessage 1 1 20 [] "u" (fun _ => ORReply.transportErr)).err =
      some (SendErr.maxRetriesExceeded (some SendErr.transport)) from rfl]
    simp
  · rw [show (claudeSendMessage 1 30 [] "u" (fun _ => ClaudeReply.transportErr)).err =
      some (SendErr.failedAfterRetries (some SendErr.transport)) from rfl]
    simp

end Odesair
